import Mathlib

/-!
Shallow embedding of the TagSoft API core (src/server.js): the in-memory
entity store (accounts, containers, events), the per-request access gate,
and the analytics aggregator.  JavaScript request-body values are modelled
by the inductive `JVal` (JSON values plus `undefined`), JS numbers by
`JSNum` (integers plus `NaN`; non-integer literals are outside the model),
and the JS coercions `String(...)`, `Number(...)` and truthiness are
modelled explicitly.  `Date.parse` and `Date.now` are external library
calls and enter the model as parameters.
-/

namespace TagSoft

/-- A JavaScript number: an integer or `NaN`.  Fractional values do not
occur in the fragments of server.js modelled here. -/
inductive JSNum where
  | int (i : Int)
  | nan
deriving DecidableEq, Repr

/-- A JavaScript/JSON value as it appears in a parsed request body:
`undefined`, `null`, booleans, numbers, strings, arrays and objects
(objects as ordered field lists, first binding wins on lookup). -/
inductive JVal where
  | jundefined
  | jnull
  | jbool (b : Bool)
  | jnum (n : JSNum)
  | jstr (s : String)
  | jarr (elems : List JVal)
  | jobj (fields : List (String × JVal))
deriving Repr

mutual

/-- Structural equality test on `JVal`; used as the key comparison of the
in-memory `Map`s (on the JSON primitives that occur as keys it agrees with
the SameValueZero comparison of a JavaScript `Map`). -/
def JVal.beq : JVal → JVal → Bool
  | .jundefined, .jundefined => true
  | .jnull, .jnull => true
  | .jbool a, .jbool b => a == b
  | .jnum a, .jnum b => a == b
  | .jstr a, .jstr b => a == b
  | .jarr a, .jarr b => JVal.beqList a b
  | .jobj a, .jobj b => JVal.beqFields a b
  | _, _ => false

/-- Elementwise `JVal.beq` on lists. -/
def JVal.beqList : List JVal → List JVal → Bool
  | [], [] => true
  | x :: xs, y :: ys => JVal.beq x y && JVal.beqList xs ys
  | _, _ => false

/-- Elementwise `JVal.beq` on field lists. -/
def JVal.beqFields : List (String × JVal) → List (String × JVal) → Bool
  | [], [] => true
  | p :: ps, q :: qs => p.1 == q.1 && JVal.beq p.2 q.2 && JVal.beqFields ps qs
  | _, _ => false

end

instance : BEq JVal := ⟨JVal.beq⟩

/-- JavaScript truthiness: `undefined`, `null`, `false`, `0`, `NaN` and the
empty string are falsy; every array and object is truthy. -/
def truthy : JVal → Bool
  | .jundefined => false
  | .jnull => false
  | .jbool b => b
  | .jnum (.int i) => i != 0
  | .jnum .nan => false
  | .jstr s => s != ""
  | .jarr _ => true
  | .jobj _ => true

/-- The JavaScript `a || b` operator on values. -/
def jsOr (a b : JVal) : JVal :=
  if truthy a then a else b

/-- Key lookup in an object field list, first binding wins (a JSON object
has unique keys, so this agrees with JavaScript property access). -/
def getFields : List (String × JVal) → String → JVal
  | [], _ => .jundefined
  | p :: rest, k => if p.1 == k then p.2 else getFields rest k

/-- Property read `v.k`: on an object, the binding of the key (absent keys
give `undefined`); on any non-object, `undefined` (none of the properties
read by server.js exists on primitives or arrays). -/
def getField : JVal → String → JVal
  | .jobj fs, k => getFields fs k
  | _, _ => .jundefined

/-- Helper of `setField`: replace the first binding of `k`, or append. -/
def setFields (fs : List (String × JVal)) (k : String) (v : JVal) :
    List (String × JVal) :=
  match fs with
  | [] => [(k, v)]
  | p :: rest => if p.1 == k then (k, v) :: rest else p :: setFields rest k v

/-- Property write `v.k = x` on an object; a no-op on non-objects (server.js
only ever mutates bodies that passed the object-shaped guards). -/
def setField : JVal → String → JVal → JVal
  | .jobj fs, k, v => .jobj (setFields fs k v)
  | o, _, _ => o

mutual

/-- The JavaScript `String(...)` coercion. -/
def toStr : JVal → String
  | .jundefined => "undefined"
  | .jnull => "null"
  | .jbool true => "true"
  | .jbool false => "false"
  | .jnum (.int i) => toString i
  | .jnum .nan => "NaN"
  | .jstr s => s
  | .jarr xs => arrToStr xs
  | .jobj _ => "[object Object]"

/-- `Array.prototype.toString`: elements joined by commas, with `null` and
`undefined` elements rendered empty. -/
def arrToStr : List JVal → String
  | [] => ""
  | [x] =>
      match x with
      | .jundefined => ""
      | .jnull => ""
      | v => toStr v
  | x :: rest =>
      (match x with
       | .jundefined => ""
       | .jnull => ""
       | v => toStr v) ++ "," ++ arrToStr rest

end

/-- Whitespace trimming on both ends (JavaScript `trim`; the whitespace
class is restricted to the ASCII whitespace of `Char.isWhitespace`). -/
def jsTrim (s : String) : String :=
  ⟨((s.data.dropWhile Char.isWhitespace).reverse.dropWhile
      Char.isWhitespace).reverse⟩

/-- Reads a nonempty all-digit character list as a natural number;
anything else is `none`. -/
def parseDigitsGo : List Char → Nat → Option Nat
  | [], acc => some acc
  | c :: rest, acc =>
      if c.isDigit then parseDigitsGo rest (acc * 10 + (c.toNat - 48))
      else none

/-- `parseDigitsGo` on a nonempty list, from zero. -/
def parseDigits : List Char → Option Nat
  | [] => none
  | cs => parseDigitsGo cs 0

/-- The JavaScript `Number(string)` coercion restricted to the values in the
model: trimmed empty string is `0`, an optionally signed digit string is
that integer, everything else is `NaN`. -/
def strToNumber (s : String) : JSNum :=
  match (jsTrim s).data with
  | [] => .int 0
  | '-' :: rest =>
      (match parseDigits rest with
       | some n => .int (-(n : Int))
       | none => .nan)
  | '+' :: rest =>
      (match parseDigits rest with
       | some n => .int (n : Int)
       | none => .nan)
  | cs =>
      (match parseDigits cs with
       | some n => .int (n : Int)
       | none => .nan)

/-- The JavaScript `Number(...)` coercion: `undefined` is `NaN`, `null` is
`0`, booleans are `1`/`0`, strings parse via `strToNumber`, arrays coerce
through their string form, plain objects are `NaN`. -/
def toNumber : JVal → JSNum
  | .jundefined => .nan
  | .jnull => .int 0
  | .jbool true => .int 1
  | .jbool false => .int 0
  | .jnum n => n
  | .jstr s => strToNumber s
  | .jarr xs => strToNumber (arrToStr xs)
  | .jobj _ => .nan

/-! ### The in-memory store (`db` in server.js) -/

/-- `Map.get` on an insertion-ordered association list. -/
def mapGet {K V : Type} [BEq K] (m : List (K × V)) (k : K) : Option V :=
  match m with
  | [] => none
  | p :: rest => if p.1 == k then some p.2 else mapGet rest k

/-- `Map.set` on an insertion-ordered association list: an existing key is
updated in place (keeping the original key and its position), a new key is
appended. -/
def mapSet {K V : Type} [BEq K] (m : List (K × V)) (k : K) (v : V) :
    List (K × V) :=
  match m with
  | [] => [(k, v)]
  | p :: rest => if p.1 == k then (p.1, v) :: rest else p :: mapSet rest k v

/-- `Map.has`. -/
def mapHas {K V : Type} [BEq K] (m : List (K × V)) (k : K) : Bool :=
  (mapGet m k).isSome

/-- An account record exactly as the accounts route stores it: server.js
builds `{account_id, name, created_at}` from scratch on every PUT. -/
structure Account where
  account_id : String
  name : String
  created_at : String
deriving DecidableEq, Repr

/-- An event record as built by POST /v1/ingest: `ts`, `user`, `context`
and `biz` keep the caller-supplied values (with defaults), so they stay
`JVal`s. -/
structure Event where
  id : String
  event : String
  ts : JVal
  user : JVal
  context : JVal
  biz : JVal
deriving Repr

/-- The module-level `db`: an event list, the accounts `Map` keyed by the
stringified account id, and the containers `Map` keyed by the raw
`container_id` value with the normalized body object as value. -/
structure DB where
  events : List Event
  accounts : List (String × Account)
  containers : List (JVal × JVal)
deriving Repr

/-- The initial `db`: all three collections empty. -/
def emptyDB : DB := { events := [], accounts := [], containers := [] }

/-- The outcome of a mutating route, as the transport layer sees it:
`unauthorized` is a thrown auth error (401), `validationFailed msg` an
early `reply.code(400).send({error: msg})`, `success v` the `{ok:true}`
reply with its id payload. -/
inductive Outcome where
  | unauthorized
  | validationFailed (msg : String)
  | success (idOut : JVal)
deriving Repr

/-- `assertAuth` does not throw exactly when the `x-api-key` header is
present, truthy and equal to the configured key. -/
def assertAuthOk (apiKey : String) (key : Option String) : Bool :=
  match key with
  | none => false
  | some k => k != "" && k == apiKey

/-- The configured secret: `process.env.API_KEY || 'DEMO_KEY'`. -/
def configuredApiKey (env : Option String) : String :=
  match env with
  | some s => if s = "" then "DEMO_KEY" else s
  | none => "DEMO_KEY"

/-! ### Route handlers -/

/-- PUT /v1/accounts (server.js lines 115 to 128): auth gate, require a
truthy `account_id` and `name`, then build a fresh record
`{account_id, name, created_at: now}` and `Map.set` it. -/
def accountsPut (apiKey : String) (key : Option String) (nowIso : String)
    (reqBody : JVal) (db : DB) : DB × Outcome :=
  if assertAuthOk apiKey key = false then (db, .unauthorized)
  else
    let body := jsOr reqBody (.jobj [])
    if truthy (getField body "account_id") = false then
      (db, .validationFailed "account_id required")
    else if truthy (getField body "name") = false then
      (db, .validationFailed "name required")
    else
      let acc : Account :=
        { account_id := toStr (getField body "account_id"),
          name := toStr (getField body "name"),
          created_at := nowIso }
      ({ db with accounts := mapSet db.accounts acc.account_id acc },
       .success (.jstr acc.account_id))

/-- `Array.isArray(v) ? v : []` as used for `variables`, `triggers`,
`tags`. -/
def normArr (v : JVal) : JVal :=
  match v with
  | .jarr xs => .jarr xs
  | _ => .jarr []

/-- PUT /v1/containers (server.js lines 174 to 195): auth gate, require
truthy `container_id`, `name`, `account_id`, require the stringified
`account_id` to be a key of the accounts map, require
`String(c.type || 'web')` to be exactly `web` or `server`, then mutate the
body in place (version, type, variables, triggers, tags) and `Map.set` it
under the raw `container_id`. -/
def containersPut (apiKey : String) (key : Option String)
    (reqBody : JVal) (db : DB) : DB × Outcome :=
  if assertAuthOk apiKey key = false then (db, .unauthorized)
  else
    let c := jsOr reqBody (.jobj [])
    if truthy (getField c "container_id") = false then
      (db, .validationFailed "container_id required")
    else if truthy (getField c "name") = false then
      (db, .validationFailed "name required")
    else if truthy (getField c "account_id") = false then
      (db, .validationFailed "account_id required")
    else if mapHas db.accounts (toStr (getField c "account_id")) = false then
      (db, .validationFailed "unknown account_id")
    else
      let ty := toStr (jsOr (getField c "type") (.jstr "web"))
      if (ty == "web" || ty == "server") = false then
        (db, .validationFailed "invalid type")
      else
        let c := setField c "version"
          (.jnum (toNumber (jsOr (getField c "version") (.jnum (.int 1)))))
        let c := setField c "type" (.jstr ty)
        let c := setField c "variables" (normArr (getField c "variables"))
        let c := setField c "triggers" (normArr (getField c "triggers"))
        let c := setField c "tags" (normArr (getField c "tags"))
        ({ db with
            containers := mapSet db.containers (getField c "container_id") c },
         .success (getField c "container_id"))

/-- POST /v1/ingest (server.js lines 135 to 155): auth gate, require a
nonempty trimmed `String(body.event || '')`, then append the event record
with defaulted `ts`, `user`, `context`, `biz`; `uuid` stands for the
`randomUUID()` call. -/
def ingest (apiKey : String) (key : Option String) (nowIso uuid : String)
    (reqBody : JVal) (db : DB) : DB × Outcome :=
  if assertAuthOk apiKey key = false then (db, .unauthorized)
  else
    let body := jsOr reqBody (.jobj [])
    let eventName := jsTrim (toStr (jsOr (getField body "event") (.jstr "")))
    if eventName = "" then
      (db, .validationFailed "campo obrigatório: event")
    else
      let evt : Event :=
        { id := uuid,
          event := eventName,
          ts := jsOr (getField body "ts") (.jstr nowIso),
          user := jsOr (getField body "user") (.jobj []),
          context := jsOr (getField body "context") (.jobj []),
          biz := jsOr (getField body "biz") (.jobj []) }
      ({ db with events := db.events ++ [evt] }, .success (.jstr uuid))

/-! ### Analytics -/

/-- The filter of the `last24h` count:
`now - Date.parse(e.ts) < 24*3600*1000`, where `Date.parse` coerces its
argument to a string and is passed in as the oracle `parse`; a `NaN` parse
makes the comparison false. -/
def inLast24h (parse : String → JSNum) (now : Int) (ts : JVal) : Bool :=
  match parse (toStr ts) with
  | .nan => false
  | .int t => now - t < 86400000

/-- One step of the `by_event` reduce:
`acc[e.event] = (acc[e.event] || 0) + 1` on an insertion-ordered object. -/
def bump (acc : List (String × Nat)) (k : String) : List (String × Nat) :=
  match acc with
  | [] => [(k, 1)]
  | p :: rest => if p.1 == k then (p.1, p.2 + 1) :: rest else p :: bump rest k

/-- The `by_event` frequency object of the overview route. -/
def byEvent (events : List Event) : List (String × Nat) :=
  events.foldl (fun a e => bump a e.event) []

/-- The body of a successful GET /v1/analytics/overview reply. -/
structure OverviewResult where
  total_events : Nat
  last24h : Nat
  by_event : List (String × Nat)
deriving DecidableEq, Repr

/-- The outcome of the overview route (a read-only route: no `DB` out). -/
inductive OverviewOutcome where
  | unauthorized
  | ok (r : OverviewResult)
deriving DecidableEq, Repr

/-- GET /v1/analytics/overview (server.js lines 201 to 207): auth gate,
then `total_events`, `last24h` and `by_event` computed in one pass each
over the event list; `now` stands for `Date.now()` and `parse` for
`Date.parse`. -/
def overview (apiKey : String) (key : Option String)
    (parse : String → JSNum) (now : Int) (db : DB) : OverviewOutcome :=
  if assertAuthOk apiKey key = false then .unauthorized
  else
    .ok { total_events := db.events.length,
          last24h := (db.events.filter (fun e => inLast24h parse now e.ts)).length,
          by_event := byEvent db.events }

/-- The count a `by_event` object reports for a name (`acc[k] || 0`,
reading the insertion-ordered object directly). -/
def cnt (m : List (String × Nat)) (k : String) : Nat :=
  match m with
  | [] => 0
  | p :: rest => if p.1 == k then p.2 else cnt rest k

/-! ### Reachable store states

The only code that ever mutates `db` consists of the three mutating routes;
`Reachable` closes the empty store under them. -/

/-- A store state reachable from the empty store by any sequence of
(arbitrary) account PUTs, container PUTs and ingests. -/
inductive Reachable : DB → Prop where
  | init : Reachable emptyDB
  | putAccount (a : String) (k : Option String) (n : String) (b : JVal)
      {db : DB} : Reachable db → Reachable (accountsPut a k n b db).1
  | putContainer (a : String) (k : Option String) (b : JVal)
      {db : DB} : Reachable db → Reachable (containersPut a k b db).1
  | ingestStep (a : String) (k : Option String) (n u : String) (b : JVal)
      {db : DB} : Reachable db → Reachable (ingest a k n u b db).1

/-- The normalized shape PUT /v1/containers gives every record it stores:
array-valued `variables`, `triggers` and `tags`, a `type` that is `web` or
`server`, and a numeric `version`. -/
def NormalizedContainer (c : JVal) : Prop :=
  (∃ xs, getField c "variables" = .jarr xs) ∧
  (∃ xs, getField c "triggers" = .jarr xs) ∧
  (∃ xs, getField c "tags" = .jarr xs) ∧
  (getField c "type" = .jstr "web" ∨ getField c "type" = .jstr "server") ∧
  (∃ n, getField c "version" = .jnum n)

/-- The window test as the specification words it: the parsed timestamp
lies strictly within the interval from `now - 24h` to `now` (strict at the
lower end, at most `now` at the upper end); unparsable timestamps fail the
test.  Stated from the spec text, to be compared against the code's
`inLast24h`. -/
def specWithin24h (parse : String → JSNum) (now : Int) (ts : JVal) : Bool :=
  match parse (toStr ts) with
  | .nan => false
  | .int t => now - 86400000 < t && t ≤ now

/-! ### Concrete demonstration inputs -/

/-- A demo timestamp (the Unix epoch, ISO form). -/
def tEpoch : String := "1970-01-01T00:00:00.000Z"

/-- A demo wall-clock time for a first write. -/
def t2020 : String := "2020-01-01T00:00:00.000Z"

/-- A demo wall-clock time for a later write. -/
def t2021 : String := "2021-06-15T12:00:00.000Z"

/-- Account body: id `a`, name `old`. -/
def bodyOld : JVal := .jobj [("account_id", .jstr "a"), ("name", .jstr "old")]

/-- Account body: id `a`, name `new`. -/
def bodyNew : JVal := .jobj [("account_id", .jstr "a"), ("name", .jstr "new")]

/-- Account body with a name but no id. -/
def bodyNoId : JVal := .jobj [("name", .jstr "Café Ação!")]

/-- Account body whose name is a single space (truthy, blank after trim). -/
def bodyBlankName : JVal :=
  .jobj [("account_id", .jstr "a"), ("name", .jstr " ")]

/-- A store holding the single account `a`, written at `t2020`. -/
def dbA : DB :=
  (accountsPut "DEMO_KEY" (some "DEMO_KEY") t2020 bodyOld emptyDB).1

/-- Container body with uppercase type `WEB`. -/
def cbodyWEB : JVal :=
  .jobj [("container_id", .jstr "c1"), ("name", .jstr "C"),
    ("account_id", .jstr "a"), ("type", .jstr "WEB")]

/-- Container body with lowercase type `server`. -/
def cbodyServer : JVal :=
  .jobj [("container_id", .jstr "c1"), ("name", .jstr "C"),
    ("account_id", .jstr "a"), ("type", .jstr "server")]

/-- Container body with the non-numeric version string `abc`. -/
def cbodyAbc : JVal :=
  .jobj [("container_id", .jstr "c1"), ("name", .jstr "C"),
    ("account_id", .jstr "a"), ("version", .jstr "abc")]

/-- Container body with the negative version `-5`. -/
def cbodyNeg : JVal :=
  .jobj [("container_id", .jstr "c2"), ("name", .jstr "C"),
    ("account_id", .jstr "a"), ("version", .jnum (.int (-5)))]

/-- Container body whose `account_id` matches no account. -/
def cbodyGhost : JVal :=
  .jobj [("container_id", .jstr "c1"), ("name", .jstr "C"),
    ("account_id", .jstr "ghost"), ("type", .jstr "web")]

/-- An event whose timestamp lies two days after the epoch. -/
def evFuture : Event :=
  { id := "e1", event := "view", ts := .jstr "1970-01-03T00:00:00.000Z",
    user := .jobj [], context := .jobj [], biz := .jobj [] }

/-- `Date.parse` restricted to the timestamp of `evFuture`. -/
def parseJan3 : String → JSNum := fun s =>
  if s = "1970-01-03T00:00:00.000Z" then .int 172800000 else .nan

/-- A store holding only `evFuture`. -/
def dbFuture : DB := { events := [evFuture], accounts := [], containers := [] }

/-- First demo `view` event at the epoch. -/
def evV1 : Event :=
  { id := "e1", event := "view", ts := .jstr tEpoch,
    user := .jobj [], context := .jobj [], biz := .jobj [] }

/-- Second demo `view` event at the epoch. -/
def evV2 : Event :=
  { id := "e2", event := "view", ts := .jstr tEpoch,
    user := .jobj [], context := .jobj [], biz := .jobj [] }

/-- Demo `click` event at the epoch. -/
def evC3 : Event :=
  { id := "e3", event := "click", ts := .jstr tEpoch,
    user := .jobj [], context := .jobj [], biz := .jobj [] }

/-- `Date.parse` restricted to the epoch timestamp. -/
def parseEpoch : String → JSNum := fun s =>
  if s = tEpoch then .int 0 else .nan

/-- A store holding the three demo events `view`, `view`, `click`. -/
def dbC8 : DB :=
  { events := [evV1, evV2, evC3], accounts := [], containers := [] }

/-- A store reached by one account PUT and one container PUT. -/
def dbW : DB := (containersPut "DEMO_KEY" (some "DEMO_KEY") cbodyServer dbA).1

/-! ### Helper lemmas -/

theorem getFields_setFields_same (fs : List (String × JVal)) (k : String)
    (v : JVal) : getFields (setFields fs k v) k = v := by
  induction fs with
  | nil => simp [setFields, getFields]
  | cons p rest ih =>
      by_cases h : p.1 = k
      · simp [setFields, getFields, h]
      · simp [setFields, getFields, beq_iff_eq, h, ih]

theorem getFields_setFields_other (fs : List (String × JVal)) {k k' : String}
    (v : JVal) (h : k ≠ k') :
    getFields (setFields fs k v) k' = getFields fs k' := by
  induction fs with
  | nil => simp [setFields, getFields, beq_iff_eq, h]
  | cons p rest ih =>
      by_cases hp : p.1 = k
      · have hp' : p.1 ≠ k' := hp ▸ h
        simp [setFields, getFields, beq_iff_eq, hp, hp', h]
      · by_cases hq : p.1 = k'
        · have hq' : k' ≠ k := fun e => hp (hq ▸ e)
          simp [setFields, getFields, beq_iff_eq, hp, hq, hq']
        · simp [setFields, getFields, beq_iff_eq, hp, hq, ih]

theorem getField_setField_same (fs : List (String × JVal)) (k : String)
    (v : JVal) : getField (setField (.jobj fs) k v) k = v := by
  simp [setField, getField, getFields_setFields_same]

theorem getField_setField_other (fs : List (String × JVal)) {k k' : String}
    (v : JVal) (h : k ≠ k') :
    getField (setField (.jobj fs) k v) k' = getField (.jobj fs) k' := by
  simp [setField, getField, getFields_setFields_other fs v h]

/-- `setField` sends objects to objects. -/
theorem setField_jobj (fs : List (String × JVal)) (k : String) (v : JVal) :
    setField (.jobj fs) k v = .jobj (setFields fs k v) := rfl

/-- `normArr` always yields an array. -/
theorem normArr_isArr (v : JVal) : ∃ xs, normArr v = .jarr xs := by
  cases v <;> exact ⟨_, rfl⟩

/-- Every entry of `mapSet m k v` is either the fresh value or an entry of
`m`. -/
theorem mem_mapSet {K V : Type} [BEq K] {m : List (K × V)} {k : K} {v : V}
    {q : K × V} (h : q ∈ mapSet m k v) : q.2 = v ∨ q ∈ m := by
  induction m with
  | nil =>
      simp [mapSet] at h
      simp [h]
  | cons p rest ih =>
      by_cases hp : (p.1 == k) = true
      · simp [mapSet, hp] at h
        rcases h with h | h
        · simp [h]
        · exact Or.inr (List.mem_cons_of_mem _ h)
      · simp [mapSet, hp] at h
        rcases h with h | h
        · exact Or.inr (h ▸ List.mem_cons_self _ _)
        · rcases ih h with h' | h'
          · exact Or.inl h'
          · exact Or.inr (List.mem_cons_of_mem _ h')

/-- Looking up the key just set. -/
theorem mapGet_mapSet_same {K V : Type} [BEq K] [LawfulBEq K]
    (m : List (K × V)) (k : K) (v : V) : mapGet (mapSet m k v) k = some v := by
  induction m with
  | nil => simp [mapSet, mapGet]
  | cons p rest ih =>
      by_cases hp : p.1 = k
      · simp [mapSet, mapGet, hp]
      · simp [mapSet, mapGet, beq_iff_eq, hp, ih]

/-- A failed auth check: the header is absent or differs from the key. -/
theorem assertAuthOk_eq_false {apiKey : String} {key : Option String}
    (h : key = none ∨ ∀ k, key = some k → k ≠ apiKey) :
    assertAuthOk apiKey key = false := by
  cases key with
  | none => rfl
  | some k =>
      rcases h with h | h
      · cases h
      · simp [assertAuthOk, h k rfl]

theorem cnt_bump (acc : List (String × Nat)) (j k : String) :
    cnt (bump acc j) k = cnt acc k + (if j = k then 1 else 0) := by
  induction acc with
  | nil =>
      by_cases h : j = k <;> simp [bump, cnt, beq_iff_eq, h]
  | cons p rest ih =>
      by_cases hp : p.1 = j
      · by_cases hk : p.1 = k
        · have hjk : j = k := hp ▸ hk
          simp [bump, cnt, beq_iff_eq, hp, hk, hjk]
        · have hjk : j ≠ k := fun e => hk (e ▸ hp)
          simp [bump, cnt, beq_iff_eq, hp, hk, hjk]
      · by_cases hk : p.1 = k
        · have hjk : j ≠ k := fun e => hp (hk.trans e.symm)
          have hkj : k ≠ j := fun e => hjk e.symm
          simp [bump, cnt, beq_iff_eq, hp, hk, hjk, hkj]
        · simp [bump, cnt, beq_iff_eq, hp, hk, ih]

theorem cnt_foldl_bump (evs : List Event) (acc : List (String × Nat))
    (k : String) :
    cnt (evs.foldl (fun a e => bump a e.event) acc) k =
      cnt acc k + evs.countP (fun e => e.event == k) := by
  induction evs generalizing acc with
  | nil => simp
  | cons e rest ih =>
      rw [List.foldl_cons, ih, cnt_bump, List.countP_cons]
      by_cases h : e.event = k
      · simp [h]
        omega
      · simp [h]

/-- The count `by_event` reports for a name is the number of events with
that literal `event` field. -/
theorem cnt_byEvent (evs : List Event) (k : String) :
    cnt (byEvent evs) k = evs.countP (fun e => e.event == k) := by
  simpa [byEvent, cnt] using cnt_foldl_bump evs [] k

/-- Account PUTs never touch the containers collection. -/
theorem accountsPut_containers (a : String) (k : Option String)
    (n : String) (b : JVal) (db : DB) :
    (accountsPut a k n b db).1.containers = db.containers := by
  unfold accountsPut
  split
  · rfl
  · dsimp only
    split
    · rfl
    · split <;> rfl

/-- Ingest never touches the containers collection. -/
theorem ingest_containers (a : String) (k : Option String) (n u : String)
    (b : JVal) (db : DB) :
    (ingest a k n u b db).1.containers = db.containers := by
  unfold ingest
  split
  · rfl
  · dsimp only
    split <;> rfl

/-- A value one of whose properties is truthy is an object. -/
theorem truthy_getField_jobj {v : JVal} {k : String}
    (h : truthy (getField v k) = true) : ∃ fs, v = .jobj fs := by
  cases v with
  | jobj fs => exact ⟨fs, rfl⟩
  | _ => simp [getField, truthy] at h

/-- The object produced by the five normalization writes of the container
route is in the normalized shape, whatever the original fields were. -/
theorem normalizedContainer_sets (fs : List (String × JVal)) (v : JSNum)
    {ty : String} (x1 x2 x3 : JVal) (hty : ty = "web" ∨ ty = "server") :
    NormalizedContainer (.jobj (setFields (setFields (setFields (setFields
      (setFields fs "version" (.jnum v)) "type" (.jstr ty))
      "variables" (normArr x1)) "triggers" (normArr x2))
      "tags" (normArr x3))) := by
  have htv : ("tags" : String) ≠ "variables" := by decide
  have hrv : ("triggers" : String) ≠ "variables" := by decide
  have htr : ("tags" : String) ≠ "triggers" := by decide
  have htt : ("tags" : String) ≠ "type" := by decide
  have hrt : ("triggers" : String) ≠ "type" := by decide
  have hvt : ("variables" : String) ≠ "type" := by decide
  have hts : ("tags" : String) ≠ "version" := by decide
  have hrs : ("triggers" : String) ≠ "version" := by decide
  have hvs : ("variables" : String) ≠ "version" := by decide
  have hys : ("type" : String) ≠ "version" := by decide
  refine ⟨?_, ?_, ?_, ?_, ?_⟩
  · rw [getField, getFields_setFields_other _ _ htv,
      getFields_setFields_other _ _ hrv, getFields_setFields_same]
    exact normArr_isArr x1
  · rw [getField, getFields_setFields_other _ _ htr,
      getFields_setFields_same]
    exact normArr_isArr x2
  · rw [getField, getFields_setFields_same]
    exact normArr_isArr x3
  · rw [getField, getFields_setFields_other _ _ htt,
      getFields_setFields_other _ _ hrt,
      getFields_setFields_other _ _ hvt, getFields_setFields_same]
    rcases hty with h | h <;> simp [h]
  · rw [getField, getFields_setFields_other _ _ hts,
      getFields_setFields_other _ _ hrs,
      getFields_setFields_other _ _ hvs,
      getFields_setFields_other _ _ hys, getFields_setFields_same]
    exact ⟨v, rfl⟩

/-- The record a successful container PUT stores, as a function of the
object fields of the request body: the in-place mutation sequence of
server.js lines 187 to 191 applied to the body object. -/
def storedContainer (fs : List (String × JVal)) : JVal :=
  let c0 : JVal := .jobj fs
  let c1 := setField c0 "version"
    (.jnum (toNumber (jsOr (getField c0 "version") (.jnum (.int 1)))))
  let c2 := setField c1 "type"
    (.jstr (toStr (jsOr (getField c0 "type") (.jstr "web"))))
  let c3 := setField c2 "variables" (normArr (getField c2 "variables"))
  let c4 := setField c3 "triggers" (normArr (getField c3 "triggers"))
  setField c4 "tags" (normArr (getField c4 "tags"))

theorem storedContainer_key (fs : List (String × JVal)) :
    getField (storedContainer fs) "container_id" =
      getField (.jobj fs) "container_id" := by
  simp only [storedContainer, setField_jobj, getField]
  rw [getFields_setFields_other _ _ (by decide : ("tags" : String) ≠ "container_id"),
    getFields_setFields_other _ _ (by decide : ("triggers" : String) ≠ "container_id"),
    getFields_setFields_other _ _ (by decide : ("variables" : String) ≠ "container_id"),
    getFields_setFields_other _ _ (by decide : ("type" : String) ≠ "container_id"),
    getFields_setFields_other _ _ (by decide : ("version" : String) ≠ "container_id")]

theorem storedContainer_name (fs : List (String × JVal)) :
    getField (storedContainer fs) "name" = getField (.jobj fs) "name" := by
  simp only [storedContainer, setField_jobj, getField]
  rw [getFields_setFields_other _ _ (by decide : ("tags" : String) ≠ "name"),
    getFields_setFields_other _ _ (by decide : ("triggers" : String) ≠ "name"),
    getFields_setFields_other _ _ (by decide : ("variables" : String) ≠ "name"),
    getFields_setFields_other _ _ (by decide : ("type" : String) ≠ "name"),
    getFields_setFields_other _ _ (by decide : ("version" : String) ≠ "name")]

theorem storedContainer_type (fs : List (String × JVal)) :
    getField (storedContainer fs) "type" =
      .jstr (toStr (jsOr (getField (.jobj fs) "type") (.jstr "web"))) := by
  simp only [storedContainer, setField_jobj, getField]
  rw [getFields_setFields_other _ _ (by decide : ("tags" : String) ≠ "type"),
    getFields_setFields_other _ _ (by decide : ("triggers" : String) ≠ "type"),
    getFields_setFields_other _ _ (by decide : ("variables" : String) ≠ "type"),
    getFields_setFields_same]

theorem storedContainer_version (fs : List (String × JVal)) :
    getField (storedContainer fs) "version" =
      .jnum (toNumber (jsOr (getField (.jobj fs) "version")
        (.jnum (.int 1)))) := by
  simp only [storedContainer, setField_jobj, getField]
  rw [getFields_setFields_other _ _ (by decide : ("tags" : String) ≠ "version"),
    getFields_setFields_other _ _ (by decide : ("triggers" : String) ≠ "version"),
    getFields_setFields_other _ _ (by decide : ("variables" : String) ≠ "version"),
    getFields_setFields_other _ _ (by decide : ("type" : String) ≠ "version"),
    getFields_setFields_same]

/-- The container PUT in its success case: all guards pass and the
normalized body is stored under the raw `container_id`. -/
theorem containersPut_success (a : String) (k : Option String) {b : JVal}
    (fs : List (String × JVal)) (db : DB)
    (hauth : assertAuthOk a k = true)
    (hfs : jsOr b (.jobj []) = .jobj fs)
    (hcid : truthy (getField (.jobj fs) "container_id") = true)
    (hname : truthy (getField (.jobj fs) "name") = true)
    (haid : truthy (getField (.jobj fs) "account_id") = true)
    (hacct : mapHas db.accounts (toStr (getField (.jobj fs) "account_id")) =
      true)
    (hty : toStr (jsOr (getField (.jobj fs) "type") (.jstr "web")) = "web" ∨
      toStr (jsOr (getField (.jobj fs) "type") (.jstr "web")) = "server") :
    containersPut a k b db =
      ({ db with containers := mapSet db.containers
                   (getField (.jobj fs) "container_id") (storedContainer fs) },
       .success (getField (.jobj fs) "container_id")) := by
  unfold containersPut
  rw [hfs]
  have hty' : (toStr (jsOr (getField (.jobj fs) "type") (.jstr "web")) ==
      "web" || toStr (jsOr (getField (.jobj fs) "type") (.jstr "web")) ==
      "server") = true := by
    rcases hty with h | h <;> simp [h]
  simp only [hauth, hcid, hname, haid, hacct, hty', Bool.true_eq_false,
    if_false]
  rw [← storedContainer_key fs]
  rfl

/-- The container PUT rejects an invalid type with no write. -/
theorem containersPut_invalid_type (a : String) (k : Option String)
    {b : JVal} (fs : List (String × JVal)) (db : DB)
    (hauth : assertAuthOk a k = true)
    (hfs : jsOr b (.jobj []) = .jobj fs)
    (hcid : truthy (getField (.jobj fs) "container_id") = true)
    (hname : truthy (getField (.jobj fs) "name") = true)
    (haid : truthy (getField (.jobj fs) "account_id") = true)
    (hacct : mapHas db.accounts (toStr (getField (.jobj fs) "account_id")) =
      true)
    (hty : ¬ toStr (jsOr (getField (.jobj fs) "type") (.jstr "web")) = "web")
    (hty2 : ¬ toStr (jsOr (getField (.jobj fs) "type") (.jstr "web")) =
      "server") :
    containersPut a k b db = (db, .validationFailed "invalid type") := by
  unfold containersPut
  rw [hfs]
  have hty' : (toStr (jsOr (getField (.jobj fs) "type") (.jstr "web")) ==
      "web" || toStr (jsOr (getField (.jobj fs) "type") (.jstr "web")) ==
      "server") = false := by
    simp [hty, hty2]
  simp [hauth, hcid, hname, haid, hacct, hty']

/-- The account PUT in its success case: a fresh record entirely built from
the stringified `account_id` and `name` and the current time. -/
theorem accountsPut_success (a : String) (k : Option String)
    (nowIso : String) (b : JVal) (db : DB)
    (hauth : assertAuthOk a k = true)
    (haid : truthy (getField (jsOr b (.jobj [])) "account_id") = true)
    (hname : truthy (getField (jsOr b (.jobj [])) "name") = true) :
    accountsPut a k nowIso b db =
      ({ db with accounts := mapSet db.accounts
                   (toStr (getField (jsOr b (.jobj [])) "account_id"))
                   { account_id :=
                       toStr (getField (jsOr b (.jobj [])) "account_id"),
                     name := toStr (getField (jsOr b (.jobj [])) "name"),
                     created_at := nowIso } },
       .success (.jstr (toStr (getField (jsOr b (.jobj []))
         "account_id")))) := by
  unfold accountsPut
  simp [hauth, haid, hname]

/-- Every container record present after a container PUT is either in the
normalized shape or was already in the store. -/
theorem containersPut_store (a : String) (k : Option String) (b : JVal)
    (db : DB) (q : JVal × JVal)
    (hq : q ∈ (containersPut a k b db).1.containers) :
    NormalizedContainer q.2 ∨ q ∈ db.containers := by
  unfold containersPut at hq
  split at hq
  · exact Or.inr hq
  · dsimp only at hq
    split at hq
    · exact Or.inr hq
    · split at hq
      · exact Or.inr hq
      · split at hq
        · exact Or.inr hq
        · split at hq
          · exact Or.inr hq
          · split at hq
            · exact Or.inr hq
            · rename_i hcid _ _ _ hty
              dsimp only at hq
              rcases mem_mapSet hq with hv | hv
              · left
                rw [hv]
                have hcid' : truthy (getField (jsOr b (.jobj []))
                    "container_id") = true := by
                  revert hcid
                  cases truthy (getField (jsOr b (.jobj [])) "container_id") <;>
                    simp
                obtain ⟨fs, hfs⟩ := truthy_getField_jobj hcid'
                rw [hfs] at hty ⊢
                have hty' : toStr (jsOr (getField (.jobj fs) "type")
                      (.jstr "web")) = "web" ∨
                    toStr (jsOr (getField (.jobj fs) "type")
                      (.jstr "web")) = "server" := by
                  revert hty
                  simp
                  tauto
                simp only [setField_jobj]
                exact normalizedContainer_sets fs _ _ _ _ hty'
              · exact Or.inr hv

/-! ### Claim theorems -/

/-- C1, counterexample: upserting account `a` a second time does NOT merge
and does NOT preserve `created_at`: after writing `a` at `t2020` and
upserting it at `t2021`, the stored record is entirely the fresh one, whose
`created_at` is `t2021`, not the original `t2020`. -/
theorem c1_counterexample :
    mapGet ((accountsPut "DEMO_KEY" (some "DEMO_KEY") t2021 bodyNew
        dbA).1.accounts) "a" =
      some { account_id := "a", name := "new", created_at := t2021 } ∧
    t2021 ≠ t2020 := ⟨rfl, by decide⟩

/-- C1, amended: upserting an account whose id already exists (or not)
replaces the record wholesale: the stored record consists exactly of the
stringified `account_id`, the stringified `name`, and `created_at` set to
the current call time; no prior field (including `created_at`) survives and
no `updated_at` field is maintained. -/
theorem c1_upsert_replaces (a : String) (k : Option String)
    (nowIso : String) (b : JVal) (db : DB)
    (hauth : assertAuthOk a k = true)
    (haid : truthy (getField (jsOr b (.jobj [])) "account_id") = true)
    (hname : truthy (getField (jsOr b (.jobj [])) "name") = true) :
    (accountsPut a k nowIso b db).2 =
      .success (.jstr (toStr (getField (jsOr b (.jobj [])) "account_id"))) ∧
    mapGet (accountsPut a k nowIso b db).1.accounts
        (toStr (getField (jsOr b (.jobj [])) "account_id")) =
      some { account_id := toStr (getField (jsOr b (.jobj [])) "account_id"),
             name := toStr (getField (jsOr b (.jobj [])) "name"),
             created_at := nowIso } := by
  rw [accountsPut_success a k nowIso b db hauth haid hname]
  exact ⟨rfl, mapGet_mapSet_same _ _ _⟩

/-- C1 witness: the amended behavior at the concrete second upsert. -/
theorem c1_witness :
    assertAuthOk "DEMO_KEY" (some "DEMO_KEY") = true ∧
    truthy (getField (jsOr bodyNew (.jobj [])) "account_id") = true ∧
    truthy (getField (jsOr bodyNew (.jobj [])) "name") = true ∧
    ((accountsPut "DEMO_KEY" (some "DEMO_KEY") t2021 bodyNew dbA).2 =
       .success (.jstr (toStr (getField (jsOr bodyNew (.jobj []))
         "account_id"))) ∧
     mapGet (accountsPut "DEMO_KEY" (some "DEMO_KEY") t2021 bodyNew
         dbA).1.accounts
         (toStr (getField (jsOr bodyNew (.jobj [])) "account_id")) =
       some { account_id := toStr (getField (jsOr bodyNew (.jobj []))
                "account_id"),
              name := toStr (getField (jsOr bodyNew (.jobj [])) "name"),
              created_at := t2021 }) :=
  ⟨rfl, rfl, rfl,
   c1_upsert_replaces "DEMO_KEY" (some "DEMO_KEY") t2021 bodyNew dbA rfl rfl
     rfl⟩

/-- C2, counterexample: an account upsert that supplies no explicit id is
rejected with a 400 and writes nothing; no id is ever generated (the claim
asserts a generated `{prefix}_cafe-acao_{suffix}` id for this very body). -/
theorem c2_counterexample :
    accountsPut "DEMO_KEY" (some "DEMO_KEY") t2020 bodyNoId emptyDB =
      (emptyDB, .validationFailed "account_id required") := rfl

/-- C2, amended: an upsert request without an explicit id is rejected with
`ValidationFailed` (`account_id required` for accounts, `container_id
required` for containers) and the store is unchanged; the store never
generates ids. -/
theorem c2_no_id_generation (a : String) (k : Option String)
    (nowIso : String) (b bc : JVal) (db : DB)
    (hauth : assertAuthOk a k = true)
    (haid : truthy (getField (jsOr b (.jobj [])) "account_id") = false)
    (hcid : truthy (getField (jsOr bc (.jobj [])) "container_id") = false) :
    accountsPut a k nowIso b db =
      (db, .validationFailed "account_id required") ∧
    containersPut a k bc db =
      (db, .validationFailed "container_id required") := by
  constructor
  · unfold accountsPut
    simp [hauth, haid]
  · unfold containersPut
    simp [hauth, hcid]

/-- C2 witness: both rejections at concrete id-less bodies. -/
theorem c2_witness :
    assertAuthOk "DEMO_KEY" (some "DEMO_KEY") = true ∧
    truthy (getField (jsOr bodyNoId (.jobj [])) "account_id") = false ∧
    truthy (getField (jsOr bodyNoId (.jobj [])) "container_id") = false ∧
    (accountsPut "DEMO_KEY" (some "DEMO_KEY") t2020 bodyNoId emptyDB =
       (emptyDB, .validationFailed "account_id required") ∧
     containersPut "DEMO_KEY" (some "DEMO_KEY") bodyNoId emptyDB =
       (emptyDB, .validationFailed "container_id required")) :=
  ⟨rfl, rfl, rfl,
   c2_no_id_generation "DEMO_KEY" (some "DEMO_KEY") t2020 bodyNoId bodyNoId
     emptyDB rfl rfl rfl⟩

/-- C7, counterexample: an account upsert whose name is a single space (so
empty after trimming) succeeds and writes the record verbatim, instead of
failing with `ValidationFailed`. -/
theorem c7_counterexample :
    accountsPut "DEMO_KEY" (some "DEMO_KEY") t2020 bodyBlankName emptyDB =
      ({ events := [],
         accounts := [("a", { account_id := "a", name := " ",
                              created_at := t2020 })],
         containers := [] },
       .success (.jstr "a")) ∧
    jsTrim " " = "" := ⟨rfl, rfl⟩

/-- C7, amended: the account upsert rejects only a falsy `name` (absent or
empty string, among falsy values) with `name required` and no write; any
truthy name — including one made of whitespace only — is accepted and
stored verbatim, with no trimming. -/
theorem c7_name_falsy_only (a : String) (k : Option String)
    (nowIso : String) (b : JVal) (db : DB)
    (hauth : assertAuthOk a k = true)
    (haid : truthy (getField (jsOr b (.jobj [])) "account_id") = true) :
    (truthy (getField (jsOr b (.jobj [])) "name") = false →
      accountsPut a k nowIso b db = (db, .validationFailed "name required")) ∧
    (truthy (getField (jsOr b (.jobj [])) "name") = true →
      mapGet (accountsPut a k nowIso b db).1.accounts
          (toStr (getField (jsOr b (.jobj [])) "account_id")) =
        some { account_id := toStr (getField (jsOr b (.jobj []))
                 "account_id"),
               name := toStr (getField (jsOr b (.jobj [])) "name"),
               created_at := nowIso }) := by
  constructor
  · intro hname
    unfold accountsPut
    simp [hauth, haid, hname]
  · intro hname
    rw [accountsPut_success a k nowIso b db hauth haid hname]
    exact mapGet_mapSet_same _ _ _

/-- C7 witness: the amended behavior at the whitespace-name body. -/
theorem c7_witness :
    assertAuthOk "DEMO_KEY" (some "DEMO_KEY") = true ∧
    truthy (getField (jsOr bodyBlankName (.jobj [])) "account_id") = true ∧
    truthy (getField (jsOr bodyBlankName (.jobj [])) "name") = true ∧
    mapGet (accountsPut "DEMO_KEY" (some "DEMO_KEY") t2020 bodyBlankName
        emptyDB).1.accounts
        (toStr (getField (jsOr bodyBlankName (.jobj [])) "account_id")) =
      some { account_id := toStr (getField (jsOr bodyBlankName (.jobj []))
               "account_id"),
             name := toStr (getField (jsOr bodyBlankName (.jobj [])) "name"),
             created_at := t2020 } :=
  ⟨rfl, rfl, rfl,
   (c7_name_falsy_only "DEMO_KEY" (some "DEMO_KEY") t2020 bodyBlankName
     emptyDB rfl rfl).2 rfl⟩

/-- C4, counterexample: a container upsert with type `WEB` (uppercase) on
an existing account is rejected with `invalid type` and writes nothing —
the claim says it must be accepted case-insensitively and stored as
`web`. -/
theorem c4_counterexample :
    containersPut "DEMO_KEY" (some "DEMO_KEY") cbodyWEB dbA =
      (dbA, .validationFailed "invalid type") := rfl

/-- C4, amended: the `type` field defaults to `web` when falsy/absent;
otherwise its stringified value must equal `web` or `server` exactly
(case-sensitively, no lowercasing) — any other value, including `WEB`, is
rejected with `ValidationFailed` and no write — and on success the stored
record carries that exact string as its `type`. -/
theorem c4_type_exact (a : String) (k : Option String) (b : JVal)
    (fs : List (String × JVal)) (db : DB)
    (hauth : assertAuthOk a k = true)
    (hfs : jsOr b (.jobj []) = .jobj fs)
    (hcid : truthy (getField (.jobj fs) "container_id") = true)
    (hname : truthy (getField (.jobj fs) "name") = true)
    (haid : truthy (getField (.jobj fs) "account_id") = true)
    (hacct : mapHas db.accounts (toStr (getField (.jobj fs) "account_id")) =
      true) :
    (¬ toStr (jsOr (getField (.jobj fs) "type") (.jstr "web")) = "web" →
     ¬ toStr (jsOr (getField (.jobj fs) "type") (.jstr "web")) = "server" →
      containersPut a k b db = (db, .validationFailed "invalid type")) ∧
    (toStr (jsOr (getField (.jobj fs) "type") (.jstr "web")) = "web" ∨
     toStr (jsOr (getField (.jobj fs) "type") (.jstr "web")) = "server" →
      containersPut a k b db =
        ({ db with containers := mapSet db.containers
                     (getField (.jobj fs) "container_id")
                     (storedContainer fs) },
         .success (getField (.jobj fs) "container_id")) ∧
      getField (storedContainer fs) "type" =
        .jstr (toStr (jsOr (getField (.jobj fs) "type") (.jstr "web")))) := by
  constructor
  · intro h1 h2
    exact containersPut_invalid_type a k fs db hauth hfs hcid hname haid
      hacct h1 h2
  · intro hty
    exact ⟨containersPut_success a k fs db hauth hfs hcid hname haid hacct
      hty, storedContainer_type fs⟩

/-- C4 witness: the accepted case at the concrete lowercase `server`
body. -/
theorem c4_witness :
    assertAuthOk "DEMO_KEY" (some "DEMO_KEY") = true ∧
    jsOr cbodyServer (.jobj []) =
      .jobj [("container_id", .jstr "c1"), ("name", .jstr "C"),
        ("account_id", .jstr "a"), ("type", .jstr "server")] ∧
    ((toStr (jsOr (getField (.jobj [("container_id", .jstr "c1"),
          ("name", .jstr "C"), ("account_id", .jstr "a"),
          ("type", .jstr "server")]) "type") (.jstr "web")) = "web" ∨
      toStr (jsOr (getField (.jobj [("container_id", .jstr "c1"),
          ("name", .jstr "C"), ("account_id", .jstr "a"),
          ("type", .jstr "server")]) "type") (.jstr "web")) = "server") →
      containersPut "DEMO_KEY" (some "DEMO_KEY") cbodyServer dbA =
        ({ dbA with containers := mapSet dbA.containers
                      (getField (.jobj [("container_id", .jstr "c1"),
                        ("name", .jstr "C"), ("account_id", .jstr "a"),
                        ("type", .jstr "server")]) "container_id")
                      (storedContainer [("container_id", .jstr "c1"),
                        ("name", .jstr "C"), ("account_id", .jstr "a"),
                        ("type", .jstr "server")]) },
         .success (getField (.jobj [("container_id", .jstr "c1"),
           ("name", .jstr "C"), ("account_id", .jstr "a"),
           ("type", .jstr "server")]) "container_id")) ∧
      getField (storedContainer [("container_id", .jstr "c1"),
          ("name", .jstr "C"), ("account_id", .jstr "a"),
          ("type", .jstr "server")]) "type" =
        .jstr (toStr (jsOr (getField (.jobj [("container_id", .jstr "c1"),
          ("name", .jstr "C"), ("account_id", .jstr "a"),
          ("type", .jstr "server")]) "type") (.jstr "web")))) :=
  ⟨rfl, rfl,
   (c4_type_exact "DEMO_KEY" (some "DEMO_KEY") cbodyServer _ dbA rfl rfl
     rfl rfl rfl rfl).2⟩

/-- C5, counterexample: a container upsert whose `version` is the
non-numeric string `abc` succeeds and stores `version = NaN`, not the
claimed default `1`; one whose `version` is `-5` stores `-5`, which is not
positive. -/
theorem c5_counterexample :
    (mapGet (containersPut "DEMO_KEY" (some "DEMO_KEY") cbodyAbc
        dbA).1.containers (.jstr "c1")).map (fun c => getField c "version") =
      some (.jnum .nan) ∧
    JSNum.nan ≠ JSNum.int 1 ∧
    (mapGet (containersPut "DEMO_KEY" (some "DEMO_KEY") cbodyNeg
        dbA).1.containers (.jstr "c2")).map (fun c => getField c "version") =
      some (.jnum (.int (-5))) ∧
    ¬ (0 : Int) < -5 := ⟨rfl, by decide, rfl, by decide⟩

/-- C5, amended: the stored `version` is `Number(version || 1)`: a falsy
supplied value (absent, `0`, empty string, `null`, `false`, `NaN`) defaults
to `1`, and otherwise the JavaScript numeric coercion of the supplied value
is stored as is — which may be `NaN` (for a non-numeric string) or negative
or zero-free of any positivity or integrality check. -/
theorem c5_version (a : String) (k : Option String) (b : JVal)
    (fs : List (String × JVal)) (db : DB)
    (hauth : assertAuthOk a k = true)
    (hfs : jsOr b (.jobj []) = .jobj fs)
    (hcid : truthy (getField (.jobj fs) "container_id") = true)
    (hname : truthy (getField (.jobj fs) "name") = true)
    (haid : truthy (getField (.jobj fs) "account_id") = true)
    (hacct : mapHas db.accounts (toStr (getField (.jobj fs) "account_id")) =
      true)
    (hty : toStr (jsOr (getField (.jobj fs) "type") (.jstr "web")) = "web" ∨
      toStr (jsOr (getField (.jobj fs) "type") (.jstr "web")) = "server") :
    (truthy (getField (.jobj fs) "version") = false →
      getField (storedContainer fs) "version" = .jnum (.int 1)) ∧
    containersPut a k b db =
      ({ db with containers := mapSet db.containers
                   (getField (.jobj fs) "container_id")
                   (storedContainer fs) },
       .success (getField (.jobj fs) "container_id")) ∧
    getField (storedContainer fs) "version" =
      .jnum (toNumber (jsOr (getField (.jobj fs) "version")
        (.jnum (.int 1)))) := by
  refine ⟨?_, containersPut_success a k fs db hauth hfs hcid hname haid
    hacct hty, storedContainer_version fs⟩
  intro hv
  rw [storedContainer_version fs]
  unfold jsOr
  rw [hv]
  rfl

/-- C5 witness: the default at a concrete body with no `version` field. -/
theorem c5_witness :
    assertAuthOk "DEMO_KEY" (some "DEMO_KEY") = true ∧
    jsOr cbodyServer (.jobj []) =
      .jobj [("container_id", .jstr "c1"), ("name", .jstr "C"),
        ("account_id", .jstr "a"), ("type", .jstr "server")] ∧
    truthy (getField (.jobj [("container_id", .jstr "c1"),
      ("name", .jstr "C"), ("account_id", .jstr "a"),
      ("type", .jstr "server")]) "version") = false ∧
    getField (storedContainer [("container_id", .jstr "c1"),
        ("name", .jstr "C"), ("account_id", .jstr "a"),
        ("type", .jstr "server")]) "version" = .jnum (.int 1) :=
  ⟨rfl, rfl, rfl,
   (c5_version "DEMO_KEY" (some "DEMO_KEY") cbodyServer _ dbA rfl rfl rfl
     rfl rfl rfl (Or.inr rfl)).1 rfl⟩

/-- C6: a container upsert whose `account_id` is falsy or names no existing
account always fails with a `ValidationFailed` outcome (whatever the other
fields look like) and performs no write at all: the whole store, containers
included, is returned unchanged. -/
theorem c6_unknown_account (a : String) (k : Option String) (b : JVal)
    (db : DB) (hauth : assertAuthOk a k = true)
    (h : truthy (getField (jsOr b (.jobj [])) "account_id") = false ∨
      mapHas db.accounts (toStr (getField (jsOr b (.jobj []))
        "account_id")) = false) :
    ∃ msg, containersPut a k b db = (db, .validationFailed msg) := by
  unfold containersPut
  rw [if_neg (by simp [hauth])]
  dsimp only
  by_cases hcid : truthy (getField (jsOr b (.jobj [])) "container_id") =
    false
  · rw [if_pos hcid]
    exact ⟨_, rfl⟩
  · rw [if_neg hcid]
    by_cases hname : truthy (getField (jsOr b (.jobj [])) "name") = false
    · rw [if_pos hname]
      exact ⟨_, rfl⟩
    · rw [if_neg hname]
      rcases h with h | h
      · rw [if_pos h]
        exact ⟨_, rfl⟩
      · by_cases haid : truthy (getField (jsOr b (.jobj [])) "account_id") =
          false
        · rw [if_pos haid]
          exact ⟨_, rfl⟩
        · rw [if_neg haid, if_pos h]
          exact ⟨_, rfl⟩

/-- C6 witness: the rejection at a concrete body naming a missing
account. -/
theorem c6_witness :
    assertAuthOk "DEMO_KEY" (some "DEMO_KEY") = true ∧
    mapHas dbA.accounts (toStr (getField (jsOr cbodyGhost (.jobj []))
      "account_id")) = false ∧
    ∃ msg, containersPut "DEMO_KEY" (some "DEMO_KEY") cbodyGhost dbA =
      (dbA, .validationFailed msg) :=
  ⟨rfl, rfl,
   c6_unknown_account "DEMO_KEY" (some "DEMO_KEY") cbodyGhost dbA rfl
     (Or.inr rfl)⟩

/-- C10: in every store reachable from the empty one by any sequence of
route calls, every container record has the normalized shape: array-valued
`variables`, `triggers` and `tags`, a `type` equal to `web` or `server`,
and a numeric `version`. -/
theorem c10_normalized {db : DB} (h : Reachable db) :
    ∀ q ∈ db.containers, NormalizedContainer q.2 := by
  induction h with
  | init =>
      intro q hq
      cases hq
  | putAccount a k n b _ ih =>
      intro q hq
      rw [accountsPut_containers] at hq
      exact ih q hq
  | putContainer a k b _ ih =>
      intro q hq
      rcases containersPut_store a k b _ q hq with h' | h'
      · exact h'
      · exact ih q h'
  | ingestStep a k n u b _ ih =>
      intro q hq
      rw [ingest_containers] at hq
      exact ih q hq

/-- C10 witness: the invariant at the concrete reachable store `dbW`. -/
theorem c10_witness :
    Reachable dbW ∧ ∀ q ∈ dbW.containers, NormalizedContainer q.2 :=
  have hr : Reachable dbW :=
    Reachable.putContainer "DEMO_KEY" (some "DEMO_KEY") cbodyServer
      (Reachable.putAccount "DEMO_KEY" (some "DEMO_KEY") t2020 bodyOld
        Reachable.init)
  ⟨hr, c10_normalized hr⟩

/-- C9: with an absent or wrong `x-api-key`, every mutating route and the
overview fail as unauthorized before touching the store: the returned store
is exactly the input store. -/
theorem c9_gate (apiKey : String) (key : Option String)
    (nowIso uuid : String) (b1 b2 b3 : JVal) (parse : String → JSNum)
    (now : Int) (db : DB)
    (h : key = none ∨ ∀ s, key = some s → s ≠ apiKey) :
    accountsPut apiKey key nowIso b1 db = (db, .unauthorized) ∧
    containersPut apiKey key b2 db = (db, .unauthorized) ∧
    ingest apiKey key nowIso uuid b3 db = (db, .unauthorized) ∧
    overview apiKey key parse now db = .unauthorized := by
  have hf := assertAuthOk_eq_false h
  refine ⟨?_, ?_, ?_, ?_⟩
  · unfold accountsPut
    simp [hf]
  · unfold containersPut
    simp [hf]
  · unfold ingest
    simp [hf]
  · unfold overview
    simp [hf]

/-- C3, counterexample: the code's 24h filter has no upper bound.  With
`now` at the epoch and one event whose timestamp parses to two days AFTER
`now`, the overview reports `last24h = 1`, while the events lying strictly
within the interval from `now - 24h` to `now` number `0`.  The rest of the
claim behaves as stated (the event is counted in `total_events` and
`by_event`). -/
theorem c3_counterexample :
    overview "DEMO_KEY" (some "DEMO_KEY") parseJan3 0 dbFuture =
      .ok { total_events := 1, last24h := 1, by_event := [("view", 1)] } ∧
    (dbFuture.events.filter (fun e => specWithin24h parseJan3 0 e.ts)).length
      = 0 := ⟨rfl, rfl⟩

/-- C3, amended: `last24h` counts the events whose `ts` parses (non-`NaN`)
to a time strictly greater than `now - 24h`, with no upper bound — future
timestamps are counted too; events with unparsable `ts` are excluded
without failing the call, and every event regardless of its `ts` is counted
in `total_events` and in `by_event`. -/
theorem c3_last24h (apiKey : String) (key : Option String)
    (parse : String → JSNum) (now : Int) (db : DB)
    (hauth : assertAuthOk apiKey key = true) :
    overview apiKey key parse now db =
      .ok { total_events := db.events.length,
            last24h := db.events.countP (fun e =>
              match parse (toStr e.ts) with
              | .nan => false
              | .int t => decide (now - 86400000 < t)),
            by_event := byEvent db.events } ∧
    ∀ name, cnt (byEvent db.events) name =
      db.events.countP (fun e => e.event == name) := by
  constructor
  · unfold overview
    simp only [hauth, Bool.true_eq_false, if_false]
    have hlen : (db.events.filter (fun e => inLast24h parse now e.ts)).length
        = db.events.countP (fun e =>
            match parse (toStr e.ts) with
            | .nan => false
            | .int t => decide (now - 86400000 < t)) := by
      rw [List.countP_eq_length_filter]
      congr 1
      apply List.filter_congr
      intro e _
      unfold inLast24h
      cases parse (toStr e.ts) with
      | nan => rfl
      | int t =>
          simp only [decide_eq_decide]
          omega
    rw [hlen]
  · intro name
    exact cnt_byEvent db.events name

/-- C3 witness: the amended count at the concrete future-event store. -/
theorem c3_witness :
    assertAuthOk "DEMO_KEY" (some "DEMO_KEY") = true ∧
    (overview "DEMO_KEY" (some "DEMO_KEY") parseJan3 0 dbFuture =
       .ok { total_events := dbFuture.events.length,
             last24h := dbFuture.events.countP (fun e =>
               match parseJan3 (toStr e.ts) with
               | .nan => false
               | .int t => decide ((0 : Int) - 86400000 < t)),
             by_event := byEvent dbFuture.events } ∧
     ∀ name, cnt (byEvent dbFuture.events) name =
       dbFuture.events.countP (fun e => e.event == name)) :=
  ⟨rfl, c3_last24h "DEMO_KEY" (some "DEMO_KEY") parseJan3 0 dbFuture rfl⟩

/-- C8: the overview reports `total_events` equal to the size of the event
collection and `by_event` counts grouping by the literal `event` value; at
the concrete three-event store (`view`, `view`, `click`, all timestamped
`now`) it returns exactly
`{total_events := 3, last24h := 3, by_event := [(view, 2), (click, 1)]}`. -/
theorem c8_overview (apiKey : String) (key : Option String)
    (parse : String → JSNum) (now : Int) (db : DB)
    (hauth : assertAuthOk apiKey key = true) :
    (∃ r, overview apiKey key parse now db = .ok r ∧
      r.total_events = db.events.length ∧
      ∀ name, cnt r.by_event name =
        db.events.countP (fun e => e.event == name)) ∧
    overview "DEMO_KEY" (some "DEMO_KEY") parseEpoch 0 dbC8 =
      .ok { total_events := 3, last24h := 3,
            by_event := [("view", 2), ("click", 1)] } := by
  constructor
  · have hov : overview apiKey key parse now db =
        .ok { total_events := db.events.length,
              last24h := (db.events.filter
                (fun e => inLast24h parse now e.ts)).length,
              by_event := byEvent db.events } := by
      unfold overview
      simp only [hauth, Bool.true_eq_false, if_false]
    exact ⟨_, hov, rfl, fun name => cnt_byEvent db.events name⟩
  · rfl

/-- C8 witness: the general part instantiated at the three-event store. -/
theorem c8_witness :
    assertAuthOk "DEMO_KEY" (some "DEMO_KEY") = true ∧
    ((∃ r, overview "DEMO_KEY" (some "DEMO_KEY") parseEpoch 0 dbC8 = .ok r ∧
        r.total_events = dbC8.events.length ∧
        ∀ name, cnt r.by_event name =
          dbC8.events.countP (fun e => e.event == name)) ∧
     overview "DEMO_KEY" (some "DEMO_KEY") parseEpoch 0 dbC8 =
       .ok { total_events := 3, last24h := 3,
             by_event := [("view", 2), ("click", 1)] }) :=
  ⟨rfl, c8_overview "DEMO_KEY" (some "DEMO_KEY") parseEpoch 0 dbC8 rfl⟩

/-- C9 witness: the gate at a concrete wrong key. -/
theorem c9_witness :
    ((some "WRONG" : Option String) = none ∨
      ∀ s, (some "WRONG" : Option String) = some s → s ≠ "DEMO_KEY") ∧
    (accountsPut "DEMO_KEY" (some "WRONG") t2020 bodyOld dbA =
       (dbA, .unauthorized) ∧
     containersPut "DEMO_KEY" (some "WRONG") cbodyServer dbA =
       (dbA, .unauthorized) ∧
     ingest "DEMO_KEY" (some "WRONG") t2020 "u1" bodyOld dbA =
       (dbA, .unauthorized) ∧
     overview "DEMO_KEY" (some "WRONG") parseEpoch 0 dbA = .unauthorized) :=
  ⟨Or.inr (fun s hs => by cases hs; decide),
   c9_gate "DEMO_KEY" (some "WRONG") t2020 "u1" bodyOld cbodyServer bodyOld
     parseEpoch 0 dbA (Or.inr (fun s hs => by cases hs; decide))⟩

end TagSoft
